import Mathlib

/-!
Verification development for the beacn-mic-lib parameter-protocol layer.

The embedding follows `src/device.rs` (device session: handshake parsing,
parameter lookup, set-with-verify) and `src/audio/messages/exciter.rs`
(the Exciter message family).  Modules of the repository that are not under
`src/` (the value codec in `types`, the `Message` dispatcher in `messages`,
the `manager` enumerations and `version`) are modelled from the spec and
marked as such in their doc comments.

USB transport is modelled by an explicit environment `Env` holding the
outcome of each successive bulk write and bulk read; every operation
additionally returns the list of transport events it performed, so that
"no I/O happened" is a statement about the empty trace.
-/

/-- Device classification from `manager` (not under `src/`); the two product
ids recognised by `BeacnMic::open`. -/
inductive DeviceType where
  | BeacnMic
  | BeacnStudio
deriving DecidableEq, Repr

/-- Message applicability kind from `messages` (not under `src/`), as consumed
by `BeacnMic::is_command_valid`. -/
inductive DeviceMessageType where
  | Common
  | BeacnMic
  | BeacnStudio
deriving DecidableEq, Repr

/-- Firmware version quadruple from `version` (not under `src/`): the four
components decoded by `BeacnMic::open`. -/
structure VersionNumber where
  major : Nat
  minor : Nat
  patch : Nat
  build : Nat
deriving DecidableEq, Repr

/-- Split a 32-bit word into its four little-endian bytes, mirroring the
byte layout used for every 4-byte wire value. -/
def write_u32le (w : Nat) : List Nat :=
  [w % 256, w / 256 % 256, w / 65536 % 256, w / 16777216 % 256]

/-- Reassemble a 32-bit word from four little-endian bytes, as
`read_u32::<LittleEndian>` does in `BeacnMic::open` (missing bytes read
as zero, matching the zero-initialised read buffer). -/
def read_u32le (b : List Nat) : Nat :=
  b.getD 0 0 + 256 * (b.getD 1 0 + 256 * (b.getD 2 0 + 256 * b.getD 3 0))

/-- The rational value denoted by an IEEE-754 binary32 bit pattern;
`none` for infinities and NaNs. -/
def f32ToRat (w : Nat) : Option ℚ :=
  let sign : Nat := w / 2 ^ 31 % 2
  let ex : Nat := w / 2 ^ 23 % 2 ^ 8
  let man : Nat := w % 2 ^ 23
  if ex = 255 then none
  else
    let mag : ℚ := if ex = 0 then (man : ℚ) / 2 ^ 149 else ((2 ^ 23 + man : Nat) : ℚ) * 2 ^ ex / 2 ^ 150
    some (if sign = 1 then -mag else mag)

/-- The bit pattern `w` denotes a finite float within `[lo, hi]`. -/
def f32InRange (lo hi : ℚ) (w : Nat) : Prop :=
  ∃ q, f32ToRat w = some q ∧ lo ≤ q ∧ q ≤ hi

/-- Modelled from the spec: `Percent`, the bounded-scalar wrapper from
`types` (not under `src/`), range 0..=100; it wraps one `f32`, carried
here as its 32-bit pattern. -/
structure Percent where
  val : Fin 4294967296
deriving DecidableEq, Repr

/-- The `ExciterFreq` wrapper declared by `generate_range!(ExciterFreq, f32,
0.0..=5000.0)` in `exciter.rs`; the macro body lives in a module not under
`src/`, so the wrapper shape is modelled from the spec: one `f32`, carried
here as its 32-bit pattern. -/
structure ExciterFreq where
  val : Fin 4294967296
deriving DecidableEq, Repr

/-- Modelled from the spec: `write_value` of `types` (not under `src/`):
a numeric payload is encoded as its IEEE-754 single bit pattern in
little-endian byte order. -/
def write_value (w : Nat) : List Nat := write_u32le w

/-- Modelled from the spec: `read_value` of `types` (not under `src/`):
reassembles the 32-bit pattern from the 4 little-endian value bytes. -/
def read_value (b : List Nat) : Nat := read_u32le b

/-- Modelled from the spec: `WriteBeacn` for `bool` (not under `src/`):
one meaningful byte, the remaining three bytes zero. -/
def boolWriteBeacn (b : Bool) : List Nat := [if b then 1 else 0, 0, 0, 0]

/-- Modelled from the spec: `ReadBeacn` for `bool` (not under `src/`):
the low byte carries the flag. -/
def boolReadBeacn (v : List Nat) : Bool := v.getD 0 0 == 1

/-- The `Exciter` message family of `exciter.rs`: for each field a getter
variant and a value-carrying variant. -/
inductive Exciter where
  | GetAmount
  | Amount (v : Percent)
  | GetFrequency
  | Frequency (v : ExciterFreq)
  | GetEnabled
  | Enabled (v : Bool)
deriving DecidableEq, Repr

namespace Exciter

/-- `Exciter::get_device_message_type`: the family is valid on every device. -/
def get_device_message_type (_ : Exciter) : DeviceMessageType := .Common

/-- `Exciter::is_device_message_set`: true exactly on the value-carrying
variants. -/
def is_device_message_set : Exciter → Bool
  | .Amount _ | .Frequency _ | .Enabled _ => true
  | _ => false

/-- `Exciter::to_beacn_key`: the 2-byte field key, identical for the get and
set variant of one field. -/
def to_beacn_key : Exciter → List Nat
  | .Amount _ | .GetAmount => [0x01, 0x00]
  | .Frequency _ | .GetFrequency => [0x02, 0x00]
  | .Enabled _ | .GetEnabled => [0x03, 0x00]

/-- `Exciter::to_beacn_value`: the 4-byte payload of a value-carrying
variant; the `panic!("Attempted to Set a Getter")` arm is embedded
as `none`. -/
def to_beacn_value : Exciter → Option (List Nat)
  | .Amount v => some (write_value v.val.val)
  | .Frequency v => some (write_value v.val.val)
  | .Enabled v => some (boolWriteBeacn v)
  | _ => none

/-- `Exciter::from_beacn`: dispatch on the first key byte; the
`panic!("Couldn't Find Key")` arm is embedded as `none`. -/
def from_beacn (key : List Nat) (value : List Nat) (_device_type : DeviceType) :
    Option Exciter :=
  match key.getD 0 0 with
  | 0x01 => some (.Amount ⟨⟨read_value value % 2 ^ 32, Nat.mod_lt _ (by norm_num)⟩⟩)
  | 0x02 => some (.Frequency ⟨⟨read_value value % 2 ^ 32, Nat.mod_lt _ (by norm_num)⟩⟩)
  | 0x03 => some (.Enabled (boolReadBeacn value))
  | _ => none

end Exciter

/-- Modelled from the spec: the family/subsystem identifier byte the
`Message` dispatcher (not under `src/`) prepends to the Exciter family's
2-byte field key; the spec does not pin its concrete value and no claim
depends on it. -/
def exciterFamilyByte : Nat := 0x00

/-- Modelled from the spec: the top-level `Message` tagged union (the
`messages` dispatcher is not under `src/`); only the Exciter family is
visible under `src/`. -/
inductive Message where
  | Exciter (e : Exciter)
deriving DecidableEq, Repr

namespace Message

/-- Modelled from the spec: `Message::get_device_message_type` delegates to
the owning family. -/
def get_device_message_type : Message → DeviceMessageType
  | .Exciter e => e.get_device_message_type

/-- Modelled from the spec: `Message::to_beacn_key` is the family byte
followed by the family's 2-byte field key (3 bytes total). -/
def to_beacn_key : Message → List Nat
  | .Exciter e => exciterFamilyByte :: e.to_beacn_key

/-- Modelled from the spec: `Message::to_beacn_value` delegates to the
owning family's codec; `none` embeds the family's panic on a getter. -/
def to_beacn_value : Message → Option (List Nat)
  | .Exciter e => e.to_beacn_value

/-- Modelled from the spec: `Message::from_beacn_message` dispatches on the
family byte of the 8-byte reply `[key:3][opcode:1][value:4]` and delegates
the remaining 2 key bytes plus the 4 value bytes to the family's
`from_beacn`; an unknown family byte is a fatal dispatch failure (`none`). -/
def from_beacn_message (buf : List Nat) (dt : DeviceType) : Option Message :=
  if buf.getD 0 0 = exciterFamilyByte then
    (Exciter.from_beacn [buf.getD 1 0, buf.getD 2 0]
      [buf.getD 4 0, buf.getD 5 0, buf.getD 6 0, buf.getD 7 0] dt).map .Exciter
  else none

end Message

/-- The interface of the `Message` dispatcher as `device.rs` consumes it:
`fetch_value`/`set_value` use a message only through these four
operations.  Payload encoding and reply reconstruction return `Option`,
`none` embedding the fatal (panicking) arms. -/
structure MessageApi (M : Type) where
  get_device_message_type : M → DeviceMessageType
  to_beacn_key : M → List Nat
  to_beacn_value : M → Option (List Nat)
  from_beacn_message : List Nat → DeviceType → Option M

/-- The `Message` dispatcher packaged as a `MessageApi`. -/
def messageApi : MessageApi Message :=
  ⟨Message.get_device_message_type, Message.to_beacn_key,
   Message.to_beacn_value, Message.from_beacn_message⟩

/-- The state a ready `BeacnMic` session owns (`device.rs` struct fields):
device type, the transport handle (abstracted to an identifier), serial and
firmware version. -/
structure Session where
  device_type : DeviceType
  handle : Nat
  serial : List Char
  firmware_version : VersionNumber
deriving DecidableEq, Repr

/-- The recoverable error kinds surfaced by the session operations
(`bail!` sites of `device.rs`, under the spec's error names). -/
inductive DevErr where
  | IncompatibleDevice
  | TransportError
  | ProtocolError
  | VerificationFailed
deriving DecidableEq, Repr

/-- Result of a session operation: `panic` embeds the fatal (panicking)
paths, `err` the recoverable `bail!` paths. -/
inductive Outcome (M : Type) where
  | panic
  | err (e : DevErr)
  | ok (m : M)
deriving DecidableEq, Repr

/-- A transport event: one bulk write (with the bytes written) or one bulk
read on the session's endpoints. -/
inductive Event where
  | write (bytes : List Nat)
  | read
deriving DecidableEq, Repr

/-- The transport environment: outcomes of the successive bulk writes
(`true` = success) and bulk reads (`some bytes` = the device's reply,
`none` = transport failure) the device will produce; an exhausted queue is
a transport failure. -/
structure Env where
  writes : List Bool
  reads : List (Option (List Nat))
deriving DecidableEq, Repr

/-- One `write_bulk` call: consumes the next write outcome and records the
bytes written. -/
def write_bulk (env : Env) (bytes : List Nat) : Bool × Env × List Event :=
  match env.writes with
  | [] => (false, env, [.write bytes])
  | b :: rest => (b, { env with writes := rest }, [.write bytes])

/-- One `read_bulk` call: consumes the next read outcome and records the
read. -/
def read_bulk (env : Env) : Option (List Nat) × Env × List Event :=
  match env.reads with
  | [] => (none, env, [.read])
  | r :: rest => (r, { env with reads := rest }, [.read])

/-- `BeacnMic::param_lookup`: send `key ++ [0xA3]`, read an 8-byte reply,
and bail with a protocol error unless the reply echoes the first 2 request
bytes and carries `0xA4` at offset 3. -/
def param_lookup (env : Env) (key : List Nat) :
    Outcome (List Nat) × Env × List Event :=
  let request : List Nat := [key.getD 0 0, key.getD 1 0, key.getD 2 0, 0xa3]
  let (w, env1, t1) := write_bulk env request
  if w then
    let (r, env2, t2) := read_bulk env1
    match r with
    | none => (.err .TransportError, env2, t1 ++ t2)
    | some buf =>
      if buf.getD 0 0 ≠ request.getD 0 0 ∨ buf.getD 1 0 ≠ request.getD 1 0 ∨
          buf.getD 3 0 ≠ 0xa4 then
        (.err .ProtocolError, env2, t1 ++ t2)
      else
        (.ok buf, env2, t1 ++ t2)
  else (.err .TransportError, env1, t1)

/-- `BeacnMic::param_set`: send `key ++ [0xA4] ++ value`, re-read the
parameter with `param_lookup` on the same key, and bail with a
verification failure unless the 4 value bytes read back equal the 4 bytes
just written. -/
def param_set (env : Env) (key : List Nat) (value : List Nat) :
    Outcome (List Nat) × Env × List Event :=
  let request : List Nat :=
    [key.getD 0 0, key.getD 1 0, key.getD 2 0, 0xa4,
     value.getD 0 0, value.getD 1 0, value.getD 2 0, value.getD 3 0]
  let (w, env1, t1) := write_bulk env request
  if w then
    let (res, env2, t2) := param_lookup env1 key
    match res with
    | .ok new_value =>
      if [value.getD 0 0, value.getD 1 0, value.getD 2 0, value.getD 3 0] ≠
          [new_value.getD 4 0, new_value.getD 5 0, new_value.getD 6 0,
           new_value.getD 7 0] then
        (.err .VerificationFailed, env2, t1 ++ t2)
      else
        (.ok new_value, env2, t1 ++ t2)
    | .err e => (.err e, env2, t1 ++ t2)
    | .panic => (.panic, env2, t1 ++ t2)
  else (.err .TransportError, env1, t1)

/-- `BeacnMic::is_command_valid`: a `Common` message is valid everywhere, a
device-restricted message only on its device type. -/
def is_command_valid {M : Type} (api : MessageApi M) (s : Session) (m : M) :
    Bool :=
  match api.get_device_message_type m with
  | .Common => true
  | .BeacnMic => decide (s.device_type = DeviceType.BeacnMic)
  | .BeacnStudio => decide (s.device_type = DeviceType.BeacnStudio)

/-- `BeacnMic::fetch_value`: validity check, then lookup, then
reconstruction of the reply; returns the (unchanged) session state and the
transport events performed. -/
def fetch_value {M : Type} (api : MessageApi M) (s : Session) (m : M)
    (env : Env) : Outcome M × Session × Env × List Event :=
  if is_command_valid api s m then
    let key := api.to_beacn_key m
    let (res, env1, t1) := param_lookup env key
    match res with
    | .ok param =>
      match api.from_beacn_message param s.device_type with
      | some msg => (.ok msg, s, env1, t1)
      | none => (.panic, s, env1, t1)
    | .err e => (.err e, s, env1, t1)
    | .panic => (.panic, s, env1, t1)
  else (.err .IncompatibleDevice, s, env, [])

/-- `BeacnMic::set_value`: validity check, then key and payload encoding
(the payload encoding panics on a getter, before any transport I/O), then
`param_set` and reconstruction of the verification read. -/
def set_value {M : Type} (api : MessageApi M) (s : Session) (m : M)
    (env : Env) : Outcome M × Session × Env × List Event :=
  if is_command_valid api s m then
    let key := api.to_beacn_key m
    match api.to_beacn_value m with
    | none => (.panic, s, env, [])
    | some value =>
      let (res, env1, t1) := param_set env key value
      match res with
      | .ok result =>
        match api.from_beacn_message result s.device_type with
        | some msg => (.ok msg, s, env1, t1)
        | none => (.panic, s, env1, t1)
      | .err e => (.err e, s, env1, t1)
      | .panic => (.panic, s, env1, t1)
  else (.err .IncompatibleDevice, s, env, [])

/-- The version-word bit slicing of `BeacnMic::open`:
`major = w >> 0x1c`, `minor = (w >> 0x18) & 0xf`,
`patch = (w >> 0x10) & 0xff`, `build = w & 0xffff`. -/
def decode_version (version : Nat) : VersionNumber :=
  ⟨version >>> 0x1c, version >>> 0x18 &&& 0xf,
   version >>> 0x10 &&& 0xff, version &&& 0xffff⟩

/-- The serial-byte collection loop of `BeacnMic::open`: the bytes after the
version word, up to but excluding the first null terminator. -/
def serial_bytes (rest : List Nat) : List Nat :=
  rest.takeWhile (fun b => b != 0)

/-- The Unicode replacement character U+FFFD. -/
def replChar : Char := Char.ofNat 0xFFFD

/-- A UTF-8 continuation byte (`0x80..=0xBF`). -/
def isCont (b : Nat) : Bool := 0x80 ≤ b && b ≤ 0xBF

/-- Admissible first continuation byte after a 3-byte lead `b`
(tightened ranges for `0xE0` and `0xED` exclude overlong encodings and
surrogates). -/
def cont3Valid (b c : Nat) : Bool :=
  if b = 0xE0 then 0xA0 ≤ c && c ≤ 0xBF
  else if b = 0xED then 0x80 ≤ c && c ≤ 0x9F
  else isCont c

/-- Admissible first continuation byte after a 4-byte lead `b`
(tightened ranges for `0xF0` and `0xF4` exclude overlong encodings and
code points past U+10FFFF). -/
def cont4Valid (b c : Nat) : Bool :=
  if b = 0xF0 then 0x90 ≤ c && c ≤ 0xBF
  else if b = 0xF4 then 0x80 ≤ c && c ≤ 0x8F
  else isCont c

/-- Modelled from the spec: the best-effort UTF-8 decoding applied to the
collected serial bytes (`String::from_utf8_lossy` of the standard library,
an external collaborator): well-formed sequences decode to their scalar
value, each maximal invalid subpart is replaced by U+FFFD, and decoding
never fails.  The first argument is recursion fuel; one unit is spent per
decoded unit, so any fuel at least the list length is enough. -/
def utf8LossyGo : Nat → List Nat → List Char
  | 0, _ => []
  | _ + 1, [] => []
  | fuel + 1, b :: rest =>
    if b ≤ 0x7F then Char.ofNat b :: utf8LossyGo fuel rest
    else if 0xC2 ≤ b && b ≤ 0xDF then
      match rest with
      | [] => [replChar]
      | c :: r2 =>
        if isCont c then
          Char.ofNat ((b - 0xC0) * 64 + (c - 0x80)) :: utf8LossyGo fuel r2
        else replChar :: utf8LossyGo fuel (c :: r2)
    else if 0xE0 ≤ b && b ≤ 0xEF then
      match rest with
      | [] => [replChar]
      | [c] => if cont3Valid b c then [replChar] else replChar :: utf8LossyGo fuel [c]
      | c :: d :: r3 =>
        if cont3Valid b c then
          if isCont d then
            Char.ofNat ((b - 0xE0) * 4096 + (c - 0x80) * 64 + (d - 0x80)) ::
              utf8LossyGo fuel r3
          else replChar :: utf8LossyGo fuel (d :: r3)
        else replChar :: utf8LossyGo fuel (c :: d :: r3)
    else if 0xF0 ≤ b && b ≤ 0xF4 then
      match rest with
      | [] => [replChar]
      | [c] => if cont4Valid b c then [replChar] else replChar :: utf8LossyGo fuel [c]
      | [c, d] =>
        if cont4Valid b c then
          if isCont d then [replChar] else replChar :: utf8LossyGo fuel [d]
        else replChar :: utf8LossyGo fuel [c, d]
      | c :: d :: e :: r4 =>
        if cont4Valid b c then
          if isCont d then
            if isCont e then
              Char.ofNat ((b - 0xF0) * 262144 + (c - 0x80) * 4096 +
                (d - 0x80) * 64 + (e - 0x80)) :: utf8LossyGo fuel r4
            else replChar :: utf8LossyGo fuel (e :: r4)
          else replChar :: utf8LossyGo fuel (d :: e :: r4)
        else replChar :: utf8LossyGo fuel (c :: d :: e :: r4)
    else replChar :: utf8LossyGo fuel rest

/-- Best-effort UTF-8 decoding of a byte list: `utf8LossyGo` with enough
fuel. -/
def utf8Lossy (l : List Nat) : List Char := utf8LossyGo l.length l

/-- Serial parsing of `BeacnMic::open`: the bytes up to the first null
terminator, decoded best-effort. -/
def parse_serial (rest : List Nat) : String :=
  ⟨utf8Lossy (serial_bytes rest)⟩

/-- The identify-reply parse of `BeacnMic::open`: skip 4 bytes, read the
little-endian 32-bit version word and decode it, then parse the serial from
the remaining bytes. -/
def parse_identify (input : List Nat) : VersionNumber × String :=
  (decode_version (read_u32le (input.drop 4)), parse_serial (input.drop 8))

theorem read_value_write_value (w : Nat) (h : w < 4294967296) :
    read_value (write_value w) = w := by
  have e : read_value (write_value w) =
      w % 256 + 256 * (w / 256 % 256 + 256 * (w / 65536 % 256 +
        256 * (w / 16777216 % 256))) := rfl
  rw [e]; omega

theorem serial_bytes_append_zero (pre post : List Nat) (h : 0 ∉ pre) :
    serial_bytes (pre ++ 0 :: post) = pre := by
  induction pre with
  | nil => simp [serial_bytes]
  | cons a t ih =>
    simp only [List.mem_cons, not_or] at h
    have ha : (a != 0) = true := by simpa using fun e => h.1 e.symm
    simp only [serial_bytes, List.cons_append, List.takeWhile_cons, ha,
      if_true]
    exact congrArg (a :: ·) (ih h.2)

/-- C4: for every 32-bit little-endian version word `w`, the decoded version
is major = bits 31-28, minor = bits 27-24, patch = bits 23-16,
build = bits 15-0; in particular `0x12345678` decodes to
(1, 2, 0x34, 0x5678), and every decoded version satisfies major ≤ 15,
minor ≤ 15, patch ≤ 255, build ≤ 65535. -/
theorem decode_version_bit_slices :
    decode_version 0x12345678 = ⟨1, 2, 0x34, 0x5678⟩ ∧
    ∀ w : Nat, w < 2 ^ 32 →
      decode_version w =
        ⟨w / 2 ^ 28 % 16, w / 2 ^ 24 % 16, w / 2 ^ 16 % 256, w % 2 ^ 16⟩ ∧
      (decode_version w).major ≤ 15 ∧ (decode_version w).minor ≤ 15 ∧
      (decode_version w).patch ≤ 255 ∧ (decode_version w).build ≤ 65535 := by
  refine ⟨by decide, fun w hw => ?_⟩
  have h4 : (0xf : Nat) = 2 ^ 4 - 1 := by norm_num
  have h8 : (0xff : Nat) = 2 ^ 8 - 1 := by norm_num
  have h16 : (0xffff : Nat) = 2 ^ 16 - 1 := by norm_num
  have e : decode_version w =
      ⟨w / 2 ^ 28, w / 2 ^ 24 % 2 ^ 4, w / 2 ^ 16 % 2 ^ 8, w % 2 ^ 16⟩ := by
    unfold decode_version
    rw [h4, h8, h16, Nat.and_pow_two_sub_one_eq_mod,
      Nat.and_pow_two_sub_one_eq_mod, Nat.and_pow_two_sub_one_eq_mod,
      Nat.shiftRight_eq_div_pow, Nat.shiftRight_eq_div_pow,
      Nat.shiftRight_eq_div_pow]
  rw [e]
  norm_num [VersionNumber.mk.injEq] at hw ⊢
  omega

/-- C4 witness: the general slice statement applied at the concrete word
`0x12345678`. -/
theorem decode_version_bit_slices_witness :
    (0x12345678 : Nat) < 2 ^ 32 ∧
    decode_version 0x12345678 =
      ⟨0x12345678 / 2 ^ 28 % 16, 0x12345678 / 2 ^ 24 % 16,
       0x12345678 / 2 ^ 16 % 256, 0x12345678 % 2 ^ 16⟩ :=
  ⟨by norm_num, (decode_version_bit_slices.2 0x12345678 (by norm_num)).1⟩

/-- C5: serial parsing collects the bytes after the version word up to but
excluding the first zero byte, ignores everything after that zero byte,
decodes the collected bytes best-effort (the decode is a total function),
yields the empty string on an immediate zero byte, and maps the byte
sequence `'A','B','C',0,0xFF,0xFF` to `"ABC"`. -/
theorem parse_serial_stops_at_zero :
    parse_serial [65, 66, 67, 0, 255, 255] = "ABC" ∧
    (∀ pre post : List Nat, 0 ∉ pre →
      serial_bytes (pre ++ 0 :: post) = pre ∧
      parse_serial (pre ++ 0 :: post) = ⟨utf8Lossy pre⟩) ∧
    ∀ rest : List Nat, parse_serial (0 :: rest) = "" := by
  refine ⟨?_, fun pre post h => ?_, fun rest => ?_⟩
  · show (⟨utf8Lossy (serial_bytes [65, 66, 67, 0, 255, 255])⟩ : String) = "ABC"
    have hs : serial_bytes [65, 66, 67, 0, 255, 255] = [65, 66, 67] := by decide
    rw [hs]
    have hu : utf8Lossy [65, 66, 67] = ['A', 'B', 'C'] := by decide
    rw [hu]
  · exact ⟨serial_bytes_append_zero pre post h,
      congrArg (fun l => (⟨utf8Lossy l⟩ : String))
        (serial_bytes_append_zero pre post h)⟩
  · show (⟨utf8Lossy (serial_bytes (0 :: rest))⟩ : String) = ""
    have hs : serial_bytes (0 :: rest) = [] := by
      simp [serial_bytes, List.takeWhile_cons]
    rw [hs]
    rfl

/-- C5 witness: the stops-at-zero statement applied at the concrete prefix
`[65, 66, 67]` and trailing bytes `[255, 255]`. -/
theorem parse_serial_stops_at_zero_witness :
    (0 ∉ [65, 66, 67]) ∧
    serial_bytes ([65, 66, 67] ++ 0 :: [255, 255]) = [65, 66, 67] ∧
    parse_serial ([65, 66, 67] ++ 0 :: [255, 255]) = ⟨utf8Lossy [65, 66, 67]⟩ :=
  ⟨by decide, (parse_serial_stops_at_zero.2.1 [65, 66, 67] [255, 255] (by decide)).1,
   (parse_serial_stops_at_zero.2.1 [65, 66, 67] [255, 255] (by decide)).2⟩

/-- C7: `to_beacn_value` on each getter variant of the Exciter family takes
the panicking arm (embedded `none`) and never produces bytes, while each
value-carrying variant produces the 4-byte encoding of its payload. -/
theorem exciter_to_value_getter_fatal :
    (Exciter.to_beacn_value .GetAmount = none ∧
     Exciter.to_beacn_value .GetFrequency = none ∧
     Exciter.to_beacn_value .GetEnabled = none) ∧
    (∀ v : Percent,
      Exciter.to_beacn_value (.Amount v) = some (write_value v.val.val) ∧
      (write_value v.val.val).length = 4) ∧
    (∀ v : ExciterFreq,
      Exciter.to_beacn_value (.Frequency v) = some (write_value v.val.val) ∧
      (write_value v.val.val).length = 4) ∧
    (∀ b : Bool,
      Exciter.to_beacn_value (.Enabled b) = some (boolWriteBeacn b) ∧
      (boolWriteBeacn b).length = 4) :=
  ⟨⟨rfl, rfl, rfl⟩, fun _ => ⟨rfl, rfl⟩, fun _ => ⟨rfl, rfl⟩,
   fun _ => ⟨rfl, rfl⟩⟩

/-- C8: `from_beacn` with a first key byte outside the recognized set
{0x01, 0x02, 0x03} takes the panicking arm (embedded `none`) for every
value and every device type; it never defaults to a variant. -/
theorem exciter_from_beacn_unknown_key (key value : List Nat)
    (dt : DeviceType) (h1 : key.getD 0 0 ≠ 0x01) (h2 : key.getD 0 0 ≠ 0x02)
    (h3 : key.getD 0 0 ≠ 0x03) :
    Exciter.from_beacn key value dt = none := by
  unfold Exciter.from_beacn
  split <;> simp_all

/-- C8 witness: the unrecognized field code 0x04. -/
theorem exciter_from_beacn_unknown_key_witness :
    ([0x04, 0x00].getD 0 0 ≠ 0x01) ∧ ([0x04, 0x00].getD 0 0 ≠ 0x02) ∧
    ([0x04, 0x00].getD 0 0 ≠ 0x03) ∧
    Exciter.from_beacn [0x04, 0x00] [0, 0, 0, 0] DeviceType.BeacnMic = none :=
  ⟨by decide, by decide, by decide,
   exciter_from_beacn_unknown_key [0x04, 0x00] [0, 0, 0, 0] .BeacnMic
     (by decide) (by decide) (by decide)⟩

/-- C1: for each supported Exciter field (0x01 amount, 0x02 frequency,
0x03 enabled) and each payload within the field's declared bound,
reconstructing with `from_beacn` from the get-variant's key and the
set-variant's encoded value yields the set-variant carrying an equal
payload. -/
theorem exciter_wire_roundtrip (dt : DeviceType) :
    (∀ v : Percent, f32InRange 0 100 v.val.val →
      ∃ bytes, Exciter.to_beacn_value (.Amount v) = some bytes ∧
        Exciter.from_beacn (Exciter.to_beacn_key .GetAmount) bytes dt =
          some (.Amount v)) ∧
    (∀ v : ExciterFreq, f32InRange 0 5000 v.val.val →
      ∃ bytes, Exciter.to_beacn_value (.Frequency v) = some bytes ∧
        Exciter.from_beacn (Exciter.to_beacn_key .GetFrequency) bytes dt =
          some (.Frequency v)) ∧
    ∀ v : Bool,
      ∃ bytes, Exciter.to_beacn_value (.Enabled v) = some bytes ∧
        Exciter.from_beacn (Exciter.to_beacn_key .GetEnabled) bytes dt =
          some (.Enabled v) := by
  refine ⟨fun v _ => ?_, fun v _ => ?_, fun v => ?_⟩
  · obtain ⟨⟨n, hn⟩⟩ := v
    refine ⟨write_value n, rfl, ?_⟩
    have h1 : Exciter.from_beacn (Exciter.to_beacn_key .GetAmount)
        (write_value n) dt =
        some (.Amount ⟨⟨read_value (write_value n) % 2 ^ 32,
          Nat.mod_lt _ (by norm_num)⟩⟩) := rfl
    rw [h1]
    simp only [Option.some.injEq, Exciter.Amount.injEq, Percent.mk.injEq,
      Fin.mk.injEq]
    rw [read_value_write_value n hn]
    omega
  · obtain ⟨⟨n, hn⟩⟩ := v
    refine ⟨write_value n, rfl, ?_⟩
    have h1 : Exciter.from_beacn (Exciter.to_beacn_key .GetFrequency)
        (write_value n) dt =
        some (.Frequency ⟨⟨read_value (write_value n) % 2 ^ 32,
          Nat.mod_lt _ (by norm_num)⟩⟩) := rfl
    rw [h1]
    simp only [Option.some.injEq, Exciter.Frequency.injEq,
      ExciterFreq.mk.injEq, Fin.mk.injEq]
    rw [read_value_write_value n hn]
    omega
  · refine ⟨boolWriteBeacn v, rfl, ?_⟩
    cases v <;> rfl

/-- C1 witness: the amount round-trip at the concrete in-bound pattern
`0x42C80000` (100.0f). -/
theorem exciter_wire_roundtrip_witness :
    f32InRange 0 100 ((⟨⟨0x42C80000, by norm_num⟩⟩ : Percent)).val.val ∧
    ∃ bytes,
      Exciter.to_beacn_value (.Amount ⟨⟨0x42C80000, by norm_num⟩⟩) =
        some bytes ∧
      Exciter.from_beacn (Exciter.to_beacn_key .GetAmount) bytes
        DeviceType.BeacnMic = some (.Amount ⟨⟨0x42C80000, by norm_num⟩⟩) :=
  ⟨⟨100, by norm_num [f32ToRat], by norm_num, by norm_num⟩,
   (exciter_wire_roundtrip DeviceType.BeacnMic).1 ⟨⟨0x42C80000, by norm_num⟩⟩
     ⟨100, by norm_num [f32ToRat], by norm_num, by norm_num⟩⟩

/-- C6: with the transport succeeding, `param_lookup` on a 3-byte key and an
8-byte reply fails with a protocol error exactly when the reply's first 2
bytes do not echo the request's first 2 bytes or its 4th byte is not 0xA4;
the reply's 3rd byte is never compared, so replies differing only there are
accepted alike. -/
theorem param_lookup_header_check
    (k0 k1 k2 b0 b1 b2 b3 b4 b5 b6 b7 : Nat)
    (ws : List Bool) (rs : List (Option (List Nat))) :
    ((param_lookup ⟨true :: ws, some [b0, b1, b2, b3, b4, b5, b6, b7] :: rs⟩
        [k0, k1, k2]).1 = .err .ProtocolError ↔
      ¬(b0 = k0 ∧ b1 = k1 ∧ b3 = 0xa4)) ∧
    ((param_lookup ⟨true :: ws, some [b0, b1, b2, b3, b4, b5, b6, b7] :: rs⟩
        [k0, k1, k2]).1 = .ok [b0, b1, b2, b3, b4, b5, b6, b7] ↔
      (b0 = k0 ∧ b1 = k1 ∧ b3 = 0xa4)) ∧
    ∀ c2 : Nat,
      (param_lookup ⟨true :: ws, some [b0, b1, c2, b3, b4, b5, b6, b7] :: rs⟩
          [k0, k1, k2]).1 = .ok [b0, b1, c2, b3, b4, b5, b6, b7] ↔
        (param_lookup ⟨true :: ws, some [b0, b1, b2, b3, b4, b5, b6, b7] :: rs⟩
            [k0, k1, k2]).1 = .ok [b0, b1, b2, b3, b4, b5, b6, b7] := by
  have core : ∀ c2 : Nat,
      ((param_lookup ⟨true :: ws, some [b0, b1, c2, b3, b4, b5, b6, b7] :: rs⟩
          [k0, k1, k2]).1 = .err .ProtocolError ↔
        ¬(b0 = k0 ∧ b1 = k1 ∧ b3 = 0xa4)) ∧
      ((param_lookup ⟨true :: ws, some [b0, b1, c2, b3, b4, b5, b6, b7] :: rs⟩
          [k0, k1, k2]).1 = .ok [b0, b1, c2, b3, b4, b5, b6, b7] ↔
        (b0 = k0 ∧ b1 = k1 ∧ b3 = 0xa4)) := by
    intro c2
    by_cases h : b0 = k0 ∧ b1 = k1 ∧ b3 = 0xa4 <;>
      constructor <;> simp [param_lookup, write_bulk, read_bulk, h] <;>
      rw [if_pos (by tauto)] <;> simp
  exact ⟨(core b2).1, (core b2).2, fun c2 => by rw [(core c2).2, (core b2).2]⟩

/-- C3: a message whose kind is restricted to a device type other than the
session's fails both `fetch_value` and `set_value` with the
incompatible-device error, with no transport I/O performed (empty event
trace) and the environment untouched. -/
theorem incompatible_device_no_io {M : Type} (api : MessageApi M)
    (s : Session) (m : M) (env : Env)
    (h : (api.get_device_message_type m = .BeacnMic ∧
        s.device_type ≠ DeviceType.BeacnMic) ∨
      (api.get_device_message_type m = .BeacnStudio ∧
        s.device_type ≠ DeviceType.BeacnStudio)) :
    fetch_value api s m env = (.err .IncompatibleDevice, s, env, []) ∧
    set_value api s m env = (.err .IncompatibleDevice, s, env, []) := by
  have hv : is_command_valid api s m = false := by
    unfold is_command_valid
    rcases h with ⟨h1, h2⟩ | ⟨h1, h2⟩ <;> rw [h1] <;> simp [h2]
  constructor <;> simp [fetch_value, set_value, hv]

/-- Modelled from the spec: a minimal device-restricted message family
standing in for the repository's Studio-only subsystem families (not under
`src/`); one getter, kind `BeacnStudio`. -/
inductive StudioOnly where
  | GetX
deriving DecidableEq, Repr

/-- Modelled from the spec: the dispatcher interface of the `StudioOnly`
stand-in family. -/
def studioOnlyApi : MessageApi StudioOnly :=
  ⟨fun _ => .BeacnStudio, fun _ => [0x01, 0x01, 0x00], fun _ => none,
   fun _ _ => none⟩

/-- C3 witness: a Studio-only message on a Mic-type session. -/
theorem incompatible_device_no_io_witness :
    (studioOnlyApi.get_device_message_type .GetX = .BeacnStudio ∧
      (⟨DeviceType.BeacnMic, 0, [], ⟨0, 0, 0, 0⟩⟩ : Session).device_type ≠
        DeviceType.BeacnStudio) ∧
    fetch_value studioOnlyApi ⟨DeviceType.BeacnMic, 0, [], ⟨0, 0, 0, 0⟩⟩
        .GetX ⟨[true], [some []]⟩ =
      (.err .IncompatibleDevice, ⟨DeviceType.BeacnMic, 0, [], ⟨0, 0, 0, 0⟩⟩,
        ⟨[true], [some []]⟩, []) ∧
    set_value studioOnlyApi ⟨DeviceType.BeacnMic, 0, [], ⟨0, 0, 0, 0⟩⟩
        .GetX ⟨[true], [some []]⟩ =
      (.err .IncompatibleDevice, ⟨DeviceType.BeacnMic, 0, [], ⟨0, 0, 0, 0⟩⟩,
        ⟨[true], [some []]⟩, []) :=
  ⟨⟨rfl, by decide⟩,
   (incompatible_device_no_io studioOnlyApi _ .GetX _
     (Or.inr ⟨rfl, by decide⟩)).1,
   (incompatible_device_no_io studioOnlyApi _ .GetX _
     (Or.inr ⟨rfl, by decide⟩)).2⟩

/-- C9: neither `fetch_value` nor `set_value` ever changes the session
state (device type, handle, serial, firmware version), whatever the
message, the transport behaviour and the outcome. -/
theorem session_unchanged {M : Type} (api : MessageApi M) (s : Session)
    (m : M) (env : Env) :
    (fetch_value api s m env).2.1 = s ∧ (set_value api s m env).2.1 = s := by
  constructor
  · simp only [fetch_value]
    repeat' split
    all_goals rfl
  · simp only [set_value]
    repeat' split
    all_goals rfl

/-- C10: `set_value` with a getter variant of the (everywhere-accepted)
Exciter family passes the validity check but hits the payload-encoding
panic before any transport I/O: the result is the panic outcome, the event
trace is empty and the environment untouched. -/
theorem set_value_getter_no_io (s : Session) (e : Exciter) (env : Env)
    (h : Exciter.is_device_message_set e = false) :
    is_command_valid messageApi s (.Exciter e) = true ∧
    set_value messageApi s (.Exciter e) env = (.panic, s, env, []) := by
  cases e <;> simp_all [set_value, is_command_valid, messageApi,
    Message.get_device_message_type, Exciter.get_device_message_type,
    Message.to_beacn_value, Exciter.to_beacn_value,
    Exciter.is_device_message_set]

/-- C10 witness: `GetAmount` on a Mic session with transport available. -/
theorem set_value_getter_no_io_witness :
    Exciter.is_device_message_set .GetAmount = false ∧
    is_command_valid messageApi ⟨DeviceType.BeacnMic, 0, [], ⟨0, 0, 0, 0⟩⟩
      (.Exciter .GetAmount) = true ∧
    set_value messageApi ⟨DeviceType.BeacnMic, 0, [], ⟨0, 0, 0, 0⟩⟩
        (.Exciter .GetAmount) ⟨[true], [some []]⟩ =
      (.panic, ⟨DeviceType.BeacnMic, 0, [], ⟨0, 0, 0, 0⟩⟩,
        ⟨[true], [some []]⟩, []) :=
  ⟨rfl,
   (set_value_getter_no_io ⟨DeviceType.BeacnMic, 0, [], ⟨0, 0, 0, 0⟩⟩
     .GetAmount ⟨[true], [some []]⟩ rfl).1,
   (set_value_getter_no_io ⟨DeviceType.BeacnMic, 0, [], ⟨0, 0, 0, 0⟩⟩
     .GetAmount ⟨[true], [some []]⟩ rfl).2⟩

theorem param_set_writes_then_verifies (key value buf : List Nat)
    (ws : List Bool) (rs : List (Option (List Nat)))
    (hb0 : buf.getD 0 0 = key.getD 0 0) (hb1 : buf.getD 1 0 = key.getD 1 0)
    (hb3 : buf.getD 3 0 = 0xa4) :
    (param_set ⟨true :: true :: ws, some buf :: rs⟩ key value).2.2 =
      [.write [key.getD 0 0, key.getD 1 0, key.getD 2 0, 0xa4,
         value.getD 0 0, value.getD 1 0, value.getD 2 0, value.getD 3 0],
       .write [key.getD 0 0, key.getD 1 0, key.getD 2 0, 0xa3], .read] ∧
    (¬[value.getD 0 0, value.getD 1 0, value.getD 2 0, value.getD 3 0] =
        [buf.getD 4 0, buf.getD 5 0, buf.getD 6 0, buf.getD 7 0] →
      (param_set ⟨true :: true :: ws, some buf :: rs⟩ key value).1 =
        .err .VerificationFailed) ∧
    ([value.getD 0 0, value.getD 1 0, value.getD 2 0, value.getD 3 0] =
        [buf.getD 4 0, buf.getD 5 0, buf.getD 6 0, buf.getD 7 0] →
      (param_set ⟨true :: true :: ws, some buf :: rs⟩ key value).1 =
        .ok buf) := by
  by_cases hcmp : [value.getD 0 0, value.getD 1 0, value.getD 2 0,
      value.getD 3 0] =
      [buf.getD 4 0, buf.getD 5 0, buf.getD 6 0, buf.getD 7 0] <;>
    refine ⟨?_, fun hne => ?_, fun heq => ?_⟩ <;>
    simp_all [param_set, param_lookup, write_bulk, read_bulk, hb0, hb1, hb3]

theorem set_value_eq_param_set {M : Type} (api : MessageApi M)
    (s : Session) (m : M) (env : Env) (value : List Nat)
    (hvalid : is_command_valid api s m = true)
    (hv : api.to_beacn_value m = some value) :
    (set_value api s m env).2.2.2 =
      (param_set env (api.to_beacn_key m) value).2.2 ∧
    (∀ e, (param_set env (api.to_beacn_key m) value).1 = .err e →
      (set_value api s m env).1 = .err e) ∧
    ∀ result, (param_set env (api.to_beacn_key m) value).1 = .ok result →
      ∀ msg, api.from_beacn_message result s.device_type = some msg →
        (set_value api s m env).1 = .ok msg := by
  simp only [set_value, hvalid, if_true, hv]
  repeat' split
  all_goals simp_all

theorem getD_quad (l : List Nat) (h : l.length = 4) :
    [l.getD 0 0, l.getD 1 0, l.getD 2 0, l.getD 3 0] = l := by
  rcases l with _ | ⟨a, _ | ⟨b, _ | ⟨c, _ | ⟨d, _ | t⟩⟩⟩⟩ <;> simp_all

/-- C2: for every value-carrying message, with the transport succeeding and
the reply passing the header check, `set_value` writes the 8-byte request
`key ++ 0xA4 :: value` and then performs a lookup on the same key; if the 4
value bytes of the reply differ from the 4 bytes just written it fails with
the verification error, and on a byte-for-byte match it returns the message
reconstructed from the verification read. -/
theorem set_value_writes_then_verifies (s : Session) (m : Message)
    (payload buf : List Nat) (ws : List Bool) (rs : List (Option (List Nat)))
    (hval : m.to_beacn_value = some payload)
    (hb0 : buf.getD 0 0 = m.to_beacn_key.getD 0 0)
    (hb1 : buf.getD 1 0 = m.to_beacn_key.getD 1 0)
    (hb3 : buf.getD 3 0 = 0xa4) :
    (set_value messageApi s m ⟨true :: true :: ws, some buf :: rs⟩).2.2.2 =
      [.write (m.to_beacn_key ++ 0xa4 :: payload),
       .write (m.to_beacn_key ++ [0xa3]), .read] ∧
    (¬payload = [buf.getD 4 0, buf.getD 5 0, buf.getD 6 0, buf.getD 7 0] →
      (set_value messageApi s m ⟨true :: true :: ws, some buf :: rs⟩).1 =
        .err .VerificationFailed) ∧
    (payload = [buf.getD 4 0, buf.getD 5 0, buf.getD 6 0, buf.getD 7 0] →
      ∃ msg, Message.from_beacn_message buf s.device_type = some msg ∧
        (set_value messageApi s m ⟨true :: true :: ws, some buf :: rs⟩).1 =
          .ok msg) := by
  obtain ⟨e⟩ := m
  have hvalid : is_command_valid messageApi s (.Exciter e) = true := by
    cases e <;> rfl
  have hlen : payload.length = 4 := by
    cases e <;>
      simp only [Message.to_beacn_value, Exciter.to_beacn_value] at hval <;>
      first
        | exact Option.noConfusion hval
        | (injection hval with h; rw [← h]; rfl)
  have hshape := getD_quad payload hlen
  have hps := param_set_writes_then_verifies
    (Message.to_beacn_key ⟨e⟩) payload buf ws rs
    (by rw [hb0]) (by rw [hb1]) hb3
  have hun := set_value_eq_param_set messageApi s (.Exciter e)
    ⟨true :: true :: ws, some buf :: rs⟩ payload hvalid hval
  have hprojk : messageApi.to_beacn_key = Message.to_beacn_key := rfl
  have hprojf : messageApi.from_beacn_message = Message.from_beacn_message :=
    rfl
  simp only [hprojk, hprojf] at hun
  refine ⟨?_, fun hne => ?_, fun heq => ?_⟩
  · rw [hun.1, hps.1, ← hshape]
    cases e <;> rfl
  · exact hun.2.1 _ (hps.2.1 (by rw [hshape]; exact hne))
  · have hok := hps.2.2 (by rw [hshape]; exact heq)
    have hfam : buf.getD 0 0 = exciterFamilyByte := hb0
    have hmsg : ∃ msg,
        Message.from_beacn_message buf s.device_type = some msg := by
      unfold Message.from_beacn_message
      rw [if_pos hfam]
      cases e
      case GetAmount =>
        simp only [Message.to_beacn_value, Exciter.to_beacn_value] at hval
        exact Option.noConfusion hval
      case GetFrequency =>
        simp only [Message.to_beacn_value, Exciter.to_beacn_value] at hval
        exact Option.noConfusion hval
      case GetEnabled =>
        simp only [Message.to_beacn_value, Exciter.to_beacn_value] at hval
        exact Option.noConfusion hval
      case Amount v =>
        have h1 : buf.getD 1 0 = 1 := hb1
        rw [h1]
        exact ⟨_, rfl⟩
      case Frequency v =>
        have h1 : buf.getD 1 0 = 2 := hb1
        rw [h1]
        exact ⟨_, rfl⟩
      case Enabled v =>
        have h1 : buf.getD 1 0 = 3 := hb1
        rw [h1]
        exact ⟨_, rfl⟩
    obtain ⟨msg, hm⟩ := hmsg
    exact ⟨msg, hm, hun.2.2 buf hok msg hm⟩

/-- C2 witness: setting `Enabled true`; the device echoes the written value
bytes and the reconstructed message is returned. -/
theorem set_value_writes_then_verifies_witness :
    Message.to_beacn_value (.Exciter (.Enabled true)) = some [1, 0, 0, 0] ∧
    ∃ msg, Message.from_beacn_message [0, 3, 0, 0xa4, 1, 0, 0, 0]
        DeviceType.BeacnMic = some msg ∧
      (set_value messageApi ⟨DeviceType.BeacnMic, 0, [], ⟨0, 0, 0, 0⟩⟩
          (.Exciter (.Enabled true))
          ⟨[true, true], [some [0, 3, 0, 0xa4, 1, 0, 0, 0]]⟩).1 = .ok msg :=
  ⟨rfl,
   (set_value_writes_then_verifies ⟨DeviceType.BeacnMic, 0, [], ⟨0, 0, 0, 0⟩⟩
      (.Exciter (.Enabled true)) [1, 0, 0, 0] [0, 3, 0, 0xa4, 1, 0, 0, 0]
      [] [] rfl rfl rfl rfl).2.2 (by decide)⟩

/-- C6 witness: the header-check iff applied at a concrete key and reply
whose 3rd byte (0) differs from the key's 3rd byte (5) yet is accepted. -/
theorem param_lookup_header_check_witness :
    (param_lookup ⟨true :: [], some [9, 7, 0, 0xa4, 1, 2, 3, 4] :: []⟩
        [9, 7, 5]).1 = .ok [9, 7, 0, 0xa4, 1, 2, 3, 4] :=
  (param_lookup_header_check 9 7 5 9 7 0 0xa4 1 2 3 4 [] []).2.1.mpr
    ⟨rfl, rfl, rfl⟩
